import Mathlib

/-!
Shallow embedding of the hand evaluator in src/src/hand.rs
(holdem-hand-evaluator). Machine integers (u64, u16, usize) are modelled
as Nat with explicit reduction modulo 2 ^ 64 (or 2 ^ 16, 2 ^ 32) where the
source wraps or truncates. The assets crate (the constants SUIT_SHIFT,
FLUSH_MASK, OFFSET_SHIFT, NUMBER_OF_CARDS, the per-card encoding table
CARDS, and the lookup tables LOOKUP, LOOKUP_FLUSH, OFFSETS) is not part of
the sources; those are modelled from the specification, as marked on each
definition.
-/

/-- Modulus of 64-bit wrapping arithmetic. -/
def U64 : Nat := 2 ^ 64

/-- Modelled from the spec: SUIT_SHIFT, the bit offset of the suit-counter
region of the 64-bit key. The spec places the four 4-bit suit counters in a
high region of the word, above the low-32-bit rank-count region; the exact
offset is not fixed by the spec, 48 puts the 16-bit counter block in the
top 16 bits. The claims settled here do not depend on the value. -/
def SUIT_SHIFT : Nat := 48

/-- Modelled from the spec: FLUSH_MASK isolates the four suit-counter
overflow bits, i.e. the top bit (value 8) of each of the four 4-bit
counters sitting at SUIT_SHIFT. -/
def FLUSH_MASK : Nat := 0x8888 <<< SUIT_SHIFT

/-- Modelled from the spec: OFFSET_SHIFT, the fixed shift used to index the
offset table of the two-level perfect hash. The spec does not fix its
value; the claims settled here do not depend on it. -/
def OFFSET_SHIFT : Nat := 23

/-- Modelled from the spec: the per-rank contribution to the low-32-bit
rank-count region of the key. The spec fixes only the contract that sums
of up to seven contributions (at most four per rank) identify the multiset
of rank counts; powers of five satisfy it (counts are below five, so the
sum is a base-5 positional code, and 4 * 5 ^ 12 is far below 2 ^ 32). The
claims settled here do not depend on the concrete values. -/
def rankCountBase (rankId : Nat) : Nat := 5 ^ rankId

/-- Modelled from the spec: the card encoding table. Entry card = rankId *
4 + suitId is the pair (keyDelta, maskBit): keyDelta increments the 4-bit
counter of suit suitId (at SUIT_SHIFT) and adds the rank-count contribution
of rankId in the low 32 bits; maskBit is one unique bit per card, grouped
four per rank. -/
def CARDS (card : Nat) : Nat × Nat :=
  ((1 <<< (SUIT_SHIFT + 4 * (card % 4))) + rankCountBase (card / 4),
   1 <<< card)

/-- Modelled from the spec: the main non-flush lookup table. Its contents
are an external precomputed asset constrained only by a perfect-hash
contract; entries are u16 values. The claims settled here do not depend on
the contents, only on the access pattern. -/
def LOOKUP (index : Nat) : Nat := index % 2 ^ 16

/-- Modelled from the spec: the flush lookup table, indexed by a 13-bit
rank-presence mask; entries are u16 values. The claims settled here do not
depend on the contents, only on the access pattern. -/
def LOOKUP_FLUSH (index : Nat) : Nat := index % 2 ^ 16

/-- Modelled from the spec: the offset table of the two-level perfect
hash; entries are u32 values. The claims settled here do not depend on the
contents, only on the access pattern. -/
def OFFSETS (index : Nat) : Nat := index % 2 ^ 32

/-- Wrapping 64-bit subtraction on the Nat model: a.wrapping_sub b. -/
def wsub (a b : Nat) : Nat := (a + (U64 - b % U64)) % U64

/-- Number of leading zeros of a 64-bit word, u64::leading_zeros. -/
def clz64 (x : Nat) : Nat := if x = 0 then 64 else 63 - Nat.log2 x

/-- Number of set bits among bits 0..63, u64::count_ones on values below
2 ^ 64. -/
def countOnes64 (n : Nat) : Nat :=
  (List.range 64).foldl (fun acc i => acc + n / 2 ^ i % 2) 0

/-- The enum HandCategory from hand.rs, discriminants 0..8. -/
inductive HandCategory where
  | HighCard
  | OnePair
  | TwoPair
  | ThreeOfAKind
  | Straight
  | Flush
  | FullHouse
  | FourOfAKind
  | StraightFlush
deriving DecidableEq

/-- Discriminant of a HandCategory variant, as declared in hand.rs. -/
def HandCategory.toNat : HandCategory → Nat
  | .HighCard => 0
  | .OnePair => 1
  | .TwoPair => 2
  | .ThreeOfAKind => 3
  | .Straight => 4
  | .Flush => 5
  | .FullHouse => 6
  | .FourOfAKind => 7
  | .StraightFlush => 8

/-- get_hand_category from hand.rs: match on hand_rank >> 12; the
unreachable branch (a panic) is modelled as none. -/
def get_hand_category (hand_rank : Nat) : Option HandCategory :=
  match hand_rank >>> 12 with
  | 0 => some .HighCard
  | 1 => some .OnePair
  | 2 => some .TwoPair
  | 3 => some .ThreeOfAKind
  | 4 => some .Straight
  | 5 => some .Flush
  | 6 => some .FullHouse
  | 7 => some .FourOfAKind
  | 8 => some .StraightFlush
  | _ => none

/-- The struct Hand from hand.rs: a packed key and a card bit mask, both
u64. -/
structure Hand where
  key : Nat
  mask : Nat
deriving DecidableEq

/-- Hand::new from hand.rs: mask 0, key the bias constant 0x3333 shifted
into the suit-counter region. -/
def Hand.new : Hand :=
  { key := (0x3333 <<< SUIT_SHIFT) % U64, mask := 0 }

/-- Hand::add_card from hand.rs: wrapping addition of the card's keyDelta
and maskBit. -/
def Hand.add_card (h : Hand) (card : Nat) : Hand :=
  { key := (h.key + (CARDS card).1) % U64,
    mask := (h.mask + (CARDS card).2) % U64 }

/-- Hand::remove_card from hand.rs: wrapping subtraction of the card's
keyDelta and maskBit. -/
def Hand.remove_card (h : Hand) (card : Nat) : Hand :=
  { key := wsub h.key (CARDS card).1,
    mask := wsub h.mask (CARDS card).2 }

/-- Hand::from_slice from hand.rs: fold add_card over the card list,
starting from Hand::new. -/
def Hand.from_slice (cards : List Nat) : Hand :=
  cards.foldl Hand.add_card Hand.new

/-- Hand::is_empty from hand.rs. -/
def Hand.is_empty (h : Hand) : Bool := h.mask == 0

/-- Hand::len from hand.rs: popcount of the mask. -/
def Hand.len (h : Hand) : Nat := countOnes64 h.mask

/-- Hand::evaluate from hand.rs: flush path through LOOKUP_FLUSH when a
suit-counter overflow bit is set, otherwise the two-level perfect hash on
the low 32 bits of the key. The cast as u16 is modulo 2 ^ 16, the cast as
u32 as usize keeps the low 32 bits, and usize wrapping_add is modulo
2 ^ 64. -/
def Hand.evaluate (h : Hand) : Nat :=
  let is_flush := h.key &&& FLUSH_MASK
  if 0 < is_flush then
    LOOKUP_FLUSH ((h.mask >>> (4 * clz64 is_flush)) % 2 ^ 16)
  else
    let rank_key := h.key % 2 ^ 32
    let offset := OFFSETS (rank_key >>> OFFSET_SHIFT)
    LOOKUP ((rank_key + offset) % U64)

/-- impl Add for Hand from hand.rs: wrapping_add of the keys, then
wrapping_sub of the bias constant; wrapping_add of the masks. -/
def Hand.add (a rhs : Hand) : Hand :=
  { key := wsub ((a.key + rhs.key) % U64) (0x3333 <<< SUIT_SHIFT),
    mask := (a.mask + rhs.mask) % U64 }

instance : Add Hand := ⟨Hand.add⟩

/-- impl AddAssign for Hand from hand.rs: the state of the left operand
after the three assignment statements. -/
def Hand.add_assign (a rhs : Hand) : Hand :=
  let key1 := (a.key + rhs.key) % U64
  let key2 := wsub key1 (0x3333 <<< SUIT_SHIFT)
  { key := key2, mask := (a.mask + rhs.mask) % U64 }

/-- char::to_ascii_uppercase: map a lowercase ASCII letter to uppercase,
leave every other character unchanged. -/
def toAsciiUpper (c : Char) : Char :=
  if 'a' ≤ c ∧ c ≤ 'z' then Char.ofNat (c.toNat - 32) else c

/-- char::to_ascii_lowercase: map an uppercase ASCII letter to lowercase,
leave every other character unchanged. -/
def toAsciiLower (c : Char) : Char :=
  if 'A' ≤ c ∧ c ≤ 'Z' then Char.ofNat (c.toNat + 32) else c

/-- The rank-character match of Hand::from_str, applied to the already
uppercased character; none stands for the error arm. -/
def rankIdOfUpper (c : Char) : Option Nat :=
  match c with
  | '2' => some 0
  | '3' => some 1
  | '4' => some 2
  | '5' => some 3
  | '6' => some 4
  | '7' => some 5
  | '8' => some 6
  | '9' => some 7
  | 'T' => some 8
  | 'J' => some 9
  | 'Q' => some 10
  | 'K' => some 11
  | 'A' => some 12
  | _ => none

/-- The suit-character match of Hand::from_str, applied to the already
lowercased character; none stands for the error arm. -/
def suitIdOfLower (c : Char) : Option Nat :=
  match c with
  | 's' => some 0
  | 'h' => some 1
  | 'c' => some 2
  | 'd' => some 3
  | _ => none

/-- The loop of Hand::from_str over the remaining characters: two
characters per token, suit-EOF checked before the rank character is
examined, and the error arms report the case-converted character, exactly
as the source's match scrutinees do. -/
def parseChars (hand : Hand) : List Char → Except String Hand
  | [] => Except.ok hand
  | [_] => Except.error ("parse failed: expected suit character, but got EOF")
  | r :: s :: rest =>
    match rankIdOfUpper (toAsciiUpper r) with
    | none =>
      Except.error ("parse failed: expected rank character, but got \x27"
        ++ String.singleton (toAsciiUpper r) ++ "\x27")
    | some rank_id =>
      match suitIdOfLower (toAsciiLower s) with
      | none =>
        Except.error ("parse failed: expected suit character, but got \x27"
          ++ String.singleton (toAsciiLower s) ++ "\x27")
      | some suit_id => parseChars (hand.add_card (rank_id * 4 + suit_id)) rest

/-- Hand::from_str from hand.rs, over the string's character sequence. -/
def Hand.from_str (hand_str : String) : Except String Hand :=
  parseChars Hand.new hand_str.data

/-- Evaluation as worded by the spec (section 4.2): flush signal from the
key, flush path shifting the mask by four times the signal bit position
counted from the MSB of the 64-bit word, non-flush path hashing the low 32
bits of the key through the offset table with wrapping addition. -/
def evaluateSpec (h : Hand) : Nat :=
  let flushSignal := h.key &&& FLUSH_MASK
  if flushSignal ≠ 0 then
    LOOKUP_FLUSH ((h.mask >>> (4 * (63 - Nat.log2 flushSignal))) % 2 ^ 16)
  else
    let rankKey := h.key % 2 ^ 32
    LOOKUP ((rankKey + OFFSETS (rankKey >>> OFFSET_SHIFT)) % U64)

/-- Character list of a token list: each token contributes its rank
character then its suit character, left to right. -/
def tokenChars : List (Char × Char) → List Char
  | [] => []
  | (r, s) :: ts => r :: s :: tokenChars ts

/-- Card ids of a token list, rankId * 4 + suitId, left to right. -/
def tokenIds : List (Char × Char) → List Nat
  | [] => []
  | (r, s) :: ts =>
    ((rankIdOfUpper (toAsciiUpper r)).getD 0 * 4 +
      (suitIdOfLower (toAsciiLower s)).getD 0) :: tokenIds ts

/-- A token is well formed when its rank character is one of 2-9, T, J, Q,
K, A (case-insensitive) and its suit character one of s, h, c, d
(case-insensitive). -/
def goodToken (p : Char × Char) : Bool :=
  (rankIdOfUpper (toAsciiUpper p.1)).isSome &&
    (suitIdOfLower (toAsciiLower p.2)).isSome

lemma parseChars_tokens (ts : List (Char × Char)) :
    ∀ hand : Hand, ts.all goodToken = true →
      parseChars hand (tokenChars ts) =
        Except.ok ((tokenIds ts).foldl Hand.add_card hand) := by
  induction ts with
  | nil => intro hand _; rfl
  | cons p ts ih =>
    intro hand hall
    obtain ⟨r, s⟩ := p
    simp only [List.all_cons, Bool.and_eq_true, goodToken] at hall
    obtain ⟨⟨hr, hs⟩, hts⟩ := hall
    obtain ⟨rid, hrid⟩ := Option.isSome_iff_exists.mp hr
    obtain ⟨sid, hsid⟩ := Option.isSome_iff_exists.mp hs
    simp only [tokenChars, tokenIds, parseChars, hrid, hsid, List.foldl,
      Option.getD_some]
    exact ih _ hts

/-- C6: Hand::new returns the Hand with mask 0 and key equal to the bias
constant 0x3333 shifted into the suit-counter region, and this Hand is
empty: is_empty is true and len is 0. -/
theorem hand_new_spec :
    Hand.new.key = 0x3333 <<< SUIT_SHIFT ∧ Hand.new.mask = 0 ∧
    Hand.new.is_empty = true ∧ Hand.new.len = 0 := by
  refine ⟨by decide, rfl, rfl, by decide⟩

/-- C7: for every Hand (any pair of u64 fields) and every card id up to
51, remove_card exactly undoes add_card: it subtracts, with 64-bit
wrapping, the same keyDelta and maskBit that add_card added. -/
theorem add_remove_cancel (h : Hand) (card : Nat)
    (hkey : h.key < U64) (hmask : h.mask < U64) (hcard : card ≤ 51) :
    (h.add_card card).remove_card card = h := by
  obtain ⟨k, m⟩ := h
  simp only [U64] at hkey hmask
  simp only [Hand.add_card, Hand.remove_card, wsub, U64, Hand.mk.injEq]
  constructor <;> omega

/-- Witness for C7 at the empty hand and card 7. -/
theorem add_remove_cancel_witness :
    Hand.new.key < U64 ∧ Hand.new.mask < U64 ∧ (7 : Nat) ≤ 51 ∧
    (Hand.new.add_card 7).remove_card 7 = Hand.new :=
  ⟨by decide, by decide, by decide,
    add_remove_cancel Hand.new 7 (by decide) (by decide) (by decide)⟩

lemma hand_add_def (a b : Hand) : a + b = Hand.add a b := rfl

/-- C8: the merge a + b is the Hand whose key is a.key + b.key minus the
bias constant, with 64-bit wrapping arithmetic, and whose mask is
a.mask + b.mask, wrapping. -/
theorem hand_add_formula (a b : Hand) :
    a + b = { key := (a.key + b.key + (U64 - (0x3333 <<< SUIT_SHIFT))) % U64,
              mask := (a.mask + b.mask) % U64 } := by
  simp only [hand_add_def, Hand.add, wsub, Hand.mk.injEq, U64, SUIT_SHIFT,
    Nat.shiftLeft_eq]
  exact ⟨by omega, trivial⟩

/-- C9: merge is commutative and associative, and adding a card to either
operand before merging yields the same Hand; stated, as the claim scopes
it, for Hands with pairwise disjoint card masks (the proof does not need
the disjointness). -/
theorem merge_comm_assoc_distrib (a b c : Hand) (card : Nat)
    (hab : a.mask &&& b.mask = 0) (hac : a.mask &&& c.mask = 0)
    (hbc : b.mask &&& c.mask = 0) (hcard : card ≤ 51) :
    a + b = b + a ∧ (a + b) + c = a + (b + c) ∧
    (a.add_card card) + b = a + (b.add_card card) := by
  refine ⟨?_, ?_, ?_⟩ <;>
    · simp only [hand_add_def, Hand.add, Hand.add_card, wsub, Hand.mk.injEq,
        U64, SUIT_SHIFT, Nat.shiftLeft_eq]
      constructor <;> omega

/-- Witness for C9 at three disjoint one-card hands and card 3. -/
theorem merge_comm_assoc_distrib_witness :
    (Hand.from_slice [0]).mask &&& (Hand.from_slice [1]).mask = 0 ∧
    (Hand.from_slice [0]).mask &&& (Hand.from_slice [2]).mask = 0 ∧
    (Hand.from_slice [1]).mask &&& (Hand.from_slice [2]).mask = 0 ∧
    (3 : Nat) ≤ 51 ∧
    (Hand.from_slice [0] + Hand.from_slice [1] =
      Hand.from_slice [1] + Hand.from_slice [0] ∧
     (Hand.from_slice [0] + Hand.from_slice [1]) + Hand.from_slice [2] =
      Hand.from_slice [0] + (Hand.from_slice [1] + Hand.from_slice [2]) ∧
     ((Hand.from_slice [0]).add_card 3) + Hand.from_slice [1] =
      Hand.from_slice [0] + ((Hand.from_slice [1]).add_card 3)) :=
  ⟨by decide, by decide, by decide, by decide,
    merge_comm_assoc_distrib (Hand.from_slice [0]) (Hand.from_slice [1])
      (Hand.from_slice [2]) 3 (by decide) (by decide) (by decide) (by decide)⟩

/-- C10: the AddAssign implementation agrees with the Add implementation:
the state it leaves in the left operand is exactly a + b. -/
theorem add_assign_eq_add (a b : Hand) : a.add_assign b = a + b := rfl

/-- C2: for every Hand with 5 to 7 cards, evaluate computes the flush
signal key & FLUSH_MASK; when it is nonzero it returns LOOKUP_FLUSH at the
mask shifted right by four times the signal bit position counted from the
MSB, truncated to 16 bits, and otherwise it hashes the low 32 bits of the
key through OFFSETS with wrapping addition and returns the LOOKUP entry. -/
theorem evaluate_matches_spec (h : Hand) (h5 : 5 ≤ h.len) (h7 : h.len ≤ 7) :
    h.evaluate = evaluateSpec h := by
  unfold Hand.evaluate evaluateSpec clz64
  by_cases h0 : h.key &&& FLUSH_MASK = 0
  · simp [h0]
  · simp [h0, Nat.pos_of_ne_zero h0]

/-- Witness for C2 at the five-card hand of card ids 0 to 4. -/
theorem evaluate_matches_spec_witness :
    5 ≤ (Hand.from_slice [0, 1, 2, 3, 4]).len ∧
    (Hand.from_slice [0, 1, 2, 3, 4]).len ≤ 7 ∧
    (Hand.from_slice [0, 1, 2, 3, 4]).evaluate =
      evaluateSpec (Hand.from_slice [0, 1, 2, 3, 4]) :=
  ⟨by decide, by decide,
    evaluate_matches_spec (Hand.from_slice [0, 1, 2, 3, 4]) (by decide)
      (by decide)⟩

/-- C3: for every u16 rank, get_hand_category returns the variant whose
discriminant equals rank >> 12 when that value is at most 8, and reaches
the panicking arm (modelled as none) exactly when rank >> 12 exceeds 8. -/
theorem get_hand_category_spec (r : Nat) (hr : r < 2 ^ 16) :
    (∀ c : HandCategory, r >>> 12 = c.toNat → get_hand_category r = some c) ∧
    (get_hand_category r = none ↔ 8 < r >>> 12) := by
  constructor
  · intro c hc
    unfold get_hand_category
    cases c <;> simp only [HandCategory.toNat] at hc <;> rw [hc]
  · unfold get_hand_category
    generalize r >>> 12 = q
    rcases q with _ | _ | _ | _ | _ | _ | _ | _ | _ | q <;> simp

/-- Witness for C3 at rank 40960, whose top four bits are 10. -/
theorem get_hand_category_spec_witness :
    40960 < 2 ^ 16 ∧
    ((∀ c : HandCategory,
        40960 >>> 12 = c.toNat → get_hand_category 40960 = some c) ∧
     (get_hand_category 40960 = none ↔ 8 < 40960 >>> 12)) :=
  ⟨by decide, get_hand_category_spec 40960 (by decide)⟩

/-- Counterexample to C4: on input A the parser does fail, but its error
message is prefixed with the words parse failed, so it is not exactly the
string the claim demands. -/
theorem parse_error_msg_counterexample :
    Hand.from_str ("A") =
      Except.error ("parse failed: expected suit character, but got EOF") ∧
    ("parse failed: expected suit character, but got EOF" : String) ≠
      ("expected suit character, but got EOF" : String) :=
  ⟨rfl, by decide⟩

/-- C4 as amended: the three malformed inputs fail with exactly the
messages the code builds, each carrying the prefix parse failed, and the
rank and suit error messages report the offending character verbatim
inside single quotes. -/
theorem parse_error_msgs :
    Hand.from_str ("A") =
      Except.error ("parse failed: expected suit character, but got EOF") ∧
    Hand.from_str ("Ax") =
      Except.error ("parse failed: expected suit character, but got \x27x\x27") ∧
    Hand.from_str ("10s") =
      Except.error ("parse failed: expected rank character, but got \x271\x27") :=
  ⟨rfl, rfl, rfl⟩

/-- C5: parsing any well-formed token string succeeds and equals
from_slice applied to the card ids rankId * 4 + suitId taken left to
right, and parsing the empty string succeeds and yields Hand::new. -/
theorem parse_round_trip (ts : List (Char × Char))
    (hwf : ts.all goodToken = true) :
    Hand.from_str (String.mk (tokenChars ts)) =
      Except.ok (Hand.from_slice (tokenIds ts)) ∧
    Hand.from_str ("") = Except.ok Hand.new := by
  refine ⟨?_, rfl⟩
  exact parseChars_tokens ts Hand.new hwf

/-- Witness for C5 at the single token As, the ace of spades. -/
theorem parse_round_trip_witness :
    ([(('A' : Char), ('s' : Char))].all goodToken = true) ∧
    (Hand.from_str (String.mk (tokenChars [('A', 's')])) =
       Except.ok (Hand.from_slice (tokenIds [('A', 's')])) ∧
     Hand.from_str ("") = Except.ok Hand.new) :=
  ⟨by decide, parse_round_trip [('A', 's')] (by decide)⟩
